import Mathlib

/-!
Verification of the sync-squid multi-platform video publishing pipeline.

This file shallowly embeds the upload/orchestration/token logic of the
repository (lib/platforms/youtube.ts, the Facebook platform module, the
upload API routes and the upload page's fan-out/cleanup logic) as
executable Lean definitions, and proves the specification's claims about
them.  Machine floating-point sizes (file sizes in MB) are modelled as
rationals; timestamps as integers (milliseconds); fallible code returns
Except; stateful routes are modelled as pure state-passing functions whose
external effects (platform adapter calls, blob deletions) are returned
explicitly.  Definitions come first, then the theorems.
-/

namespace SyncSquid

/-- The four integrated platforms (types/database.ts). -/
inductive Platform
  | youtube
  | tiktok
  | facebook
  | instagram
deriving DecidableEq, Repr

/-- Post-level status (types/database.ts, PostStatus). -/
inductive PostStatus
  | pending
  | uploading
  | published
  | failed
deriving DecidableEq, Repr

/-- Per-platform status (types/database.ts, PlatformPostStatus). -/
inductive PlatformPostStatus
  | pending
  | uploaded
  | published
  | failed
deriving DecidableEq, Repr

/-! ## Chunk size selector (Facebook module, getOptimalChunkSize) -/

/-- Embeds `getOptimalChunkSize(fileSizeMB)` from the Facebook platform
module: tiered chunk sizes in bytes, selected by strict comparisons on the
file size in megabytes. -/
def getOptimalChunkSize (fileSizeMB : ℚ) : ℕ :=
  if fileSizeMB > 500 then 20 * 1024 * 1024
  else if fileSizeMB > 100 then 10 * 1024 * 1024
  else if fileSizeMB > 20 then 5 * 1024 * 1024
  else 2 * 1024 * 1024

/-! ## Facebook phase-level retry loop (Facebook module, uploadVideoToFacebook) -/

/-- Maximum attempts of the Facebook upload loop:
`const maxRetries = fileSizeMB > 100 ? 5 : 3`. -/
def fbMaxRetries (fileSizeMB : ℚ) : ℕ :=
  if fileSizeMB > 100 then 5 else 3

/-- Embeds `waitWithBackoff(attempt, fileSizeMB)` from the Facebook
platform module: delay in milliseconds `baseDelay * 2 ^ attempt` with
`baseDelay = fileSizeMB > 100 ? 5000 : 2000`. -/
def waitWithBackoffDelay (fileSizeMB : ℚ) (attempt : ℕ) : ℚ :=
  (if fileSizeMB > 100 then 5000 else 2000) * 2 ^ attempt

/-- Outcome of executing the body of one attempt of
`uploadVideoToFacebook`'s retry loop, as the retry logic observes it:
either the whole start/transfer/finish body succeeded with a video id,
or the start response was not ok (carrying the parsed
`error.is_transient` flag), or some later part of the body threw. -/
inductive FbAttemptOutcome
  | success (videoId : String)
  | startFailed (transientFlag : Bool) (msg : String)
  | bodyError (msg : String)
deriving DecidableEq, Repr

deriving instance DecidableEq for Except

/-- Result of running the Facebook upload retry loop: the final value or
error, how many attempts were executed, and the backoff delays (ms)
waited between attempts. -/
structure FbRunResult where
  result : Except String String
  attemptsMade : ℕ
  delays : List ℚ
deriving DecidableEq, Repr

/-- Embeds the `for (let attempt = 0; attempt < maxRetries; attempt++)`
loop of `uploadVideoToFacebook`, driven by the per-attempt outcome
function `out`.  A not-ok start response with the transient flag set (and
attempts remaining) backs off and continues; any other error thrown in
the body is caught by the attempt-level catch, which rethrows on the last
attempt and otherwise backs off and continues.  `fuel` is the number of
loop iterations still allowed (`maxRetries - attempt`). -/
def fbUploadLoop (fileSizeMB : ℚ) (out : ℕ → FbAttemptOutcome)
    (maxRetries : ℕ) : ℕ → ℕ → Option String → FbRunResult
  | _, 0, lastErr =>
    { result := .error
        (lastErr.getD "Failed to upload video to Facebook after multiple attempts"),
      attemptsMade := 0, delays := [] }
  | attempt, fuel + 1, _ =>
    match out attempt with
    | .success vid => { result := .ok vid, attemptsMade := 1, delays := [] }
    | .startFailed tr msg =>
      if tr ∧ attempt < maxRetries - 1 then
        let rest := fbUploadLoop fileSizeMB out maxRetries (attempt + 1) fuel (some msg)
        { result := rest.result, attemptsMade := rest.attemptsMade + 1,
          delays := waitWithBackoffDelay fileSizeMB attempt :: rest.delays }
      else if attempt = maxRetries - 1 then
        { result := .error msg, attemptsMade := 1, delays := [] }
      else
        let rest := fbUploadLoop fileSizeMB out maxRetries (attempt + 1) fuel (some msg)
        { result := rest.result, attemptsMade := rest.attemptsMade + 1,
          delays := waitWithBackoffDelay fileSizeMB attempt :: rest.delays }
    | .bodyError msg =>
      if attempt = maxRetries - 1 then
        { result := .error msg, attemptsMade := 1, delays := [] }
      else
        let rest := fbUploadLoop fileSizeMB out maxRetries (attempt + 1) fuel (some msg)
        { result := rest.result, attemptsMade := rest.attemptsMade + 1,
          delays := waitWithBackoffDelay fileSizeMB attempt :: rest.delays }

/-- The whole retry phase of `uploadVideoToFacebook` (after the file-size
check), from attempt 0 with a full budget of `fbMaxRetries` attempts. -/
def uploadVideoToFacebookRun (fileSizeMB : ℚ)
    (out : ℕ → FbAttemptOutcome) : FbRunResult :=
  fbUploadLoop fileSizeMB out (fbMaxRetries fileSizeMB) 0 (fbMaxRetries fileSizeMB) none

/-! ## Token manager (getValid...AccessToken in youtube.ts, tiktok.ts and
the Facebook module) -/

/-- A stored platform connection row, restricted to the fields the token
logic reads.  `expires_at` is the epoch timestamp in milliseconds
produced by `new Date(connection.expires_at).getTime()`; `none` models a
NULL expiry, which the code treats as 0. -/
structure Connection where
  access_token : String
  refresh_token : Option String
  expires_at : Option ℤ
deriving DecidableEq, Repr

/-- Outcome of the refresh call a getValid...AccessToken function may
make against the platform's token endpoint. -/
inductive RefreshOutcome
  | ok (newAccessToken : String) (expiresIn : ℤ)
  | fail (msg : String)
deriving DecidableEq, Repr

/-- `const fiveMinutes = 5 * 60 * 1000`. -/
def fiveMinutesMs : ℤ := 5 * 60 * 1000

/-- The token a getValid...AccessToken call returns, together with
whether a refresh call against the token endpoint was performed before
returning. -/
structure TokenResult where
  token : String
  refreshCalled : Bool
deriving DecidableEq, Repr

/-- Embeds `getValidYouTubeAccessToken` (youtube.ts): inside the
5-minute window it requires a refresh token and performs the refresh;
a failing refresh response makes `refreshYouTubeToken` throw
`Failed to refresh token: ...`, which this function does not catch.
Persisting the refreshed token is a store write not observed by the
claims and is omitted. -/
def getValidYouTubeAccessToken (now : ℤ) (conn : Connection)
    (refresh : RefreshOutcome) : Except String TokenResult :=
  let expiresAt := conn.expires_at.getD 0
  if expiresAt - now < fiveMinutesMs then
    match conn.refresh_token with
    | none => .error "No refresh token available"
    | some _ =>
      match refresh with
      | .ok newTok _ => .ok { token := newTok, refreshCalled := true }
      | .fail msg => .error ("Failed to refresh token: " ++ msg)
  else
    .ok { token := conn.access_token, refreshCalled := false }

/-- Embeds `getValidTikTokAccessToken` (tiktok.ts), which has exactly the
same structure as the YouTube variant: refresh failures propagate. -/
def getValidTikTokAccessToken (now : ℤ) (conn : Connection)
    (refresh : RefreshOutcome) : Except String TokenResult :=
  let expiresAt := conn.expires_at.getD 0
  if expiresAt - now < fiveMinutesMs then
    match conn.refresh_token with
    | none => .error "No refresh token available"
    | some _ =>
      match refresh with
      | .ok newTok _ => .ok { token := newTok, refreshCalled := true }
      | .fail msg => .error ("Failed to refresh token: " ++ msg)
  else
    .ok { token := conn.access_token, refreshCalled := false }

/-- Embeds `getValidFacebookAccessToken` (Facebook module): inside the
5-minute window it attempts a long-lived token extension using the stored
access token (no refresh token needed); the refresh attempt is wrapped in
try/catch, and on failure the existing (possibly stale) token is
returned. -/
def getValidFacebookAccessToken (now : ℤ) (conn : Connection)
    (refresh : RefreshOutcome) : Except String TokenResult :=
  let expiresAt := conn.expires_at.getD 0
  if expiresAt - now < fiveMinutesMs then
    match refresh with
    | .ok newTok _ => .ok { token := newTok, refreshCalled := true }
    | .fail _ => .ok { token := conn.access_token, refreshCalled := true }
  else
    .ok { token := conn.access_token, refreshCalled := false }

/-! ## Publish orchestrator fan-out (app/api/upload/route.ts POST and the
upload page's storage cleanup in handleSubmit) -/

/-- What a platform adapter returns on success. -/
structure UploadResult where
  videoId : String
  thumbnailUrl : Option String
deriving DecidableEq, Repr

/-- The fields of a post_platforms row that the orchestrator writes. -/
structure PlatformRow where
  status : PlatformPostStatus
  error_message : Option String
  platform_video_id : Option String
deriving DecidableEq, Repr

/-- The try/catch body around one platform's adapter invocation in the
fan-out: a success updates the row to uploaded with the video id and a
true success flag; a thrown error is caught and recorded on the row as
failed with the message, and a false success flag. -/
def platformAttempt (outcome : Except String UploadResult) : PlatformRow × Bool :=
  match outcome with
  | .ok r =>
    ({ status := .uploaded, error_message := none,
       platform_video_id := some r.videoId }, true)
  | .error e =>
    ({ status := .failed, error_message := some e,
       platform_video_id := none }, false)

/-- Result of the whole fan-out: the per-platform rows as written, the
derived post status, and whether the transient blob was deleted. -/
structure PublishOutcome where
  rows : List (Platform × PlatformRow)
  postStatus : PostStatus
  blobDeleted : Bool
deriving Repr

/-- Embeds the fan-out/join of the upload POST route combined with the
upload page's cleanup: each selected platform is attempted independently
(per-platform try/catch joined with Promise.allSettled, so the promises
never reject), `allSucceeded` is the conjunction of the per-platform
success flags, the post status becomes pending exactly on full success
and failed otherwise, and the transient blob is deleted only when zero
platforms failed. -/
def publishToAll (platforms : List Platform)
    (adapters : Platform → Except String UploadResult) : PublishOutcome :=
  let outcomes := platforms.map (fun p => (p, platformAttempt (adapters p)))
  let allSucceeded := outcomes.all (fun x => x.2.2)
  { rows := outcomes.map (fun x => (x.1, x.2.1)),
    postStatus := if allSucceeded then .pending else .failed,
    blobDeleted := allSucceeded }

/-! ## Retry route (app/api/upload/delete-storage/route.ts, retry POST
handler) -/

/-- The scheduled_posts fields the retry handler reads and writes. -/
structure RetryPost where
  status : PostStatus
  video_file_path : Option String
deriving DecidableEq, Repr

/-- A post_platforms row as the retry handler sees it. -/
structure RetryRow where
  platform : Platform
  status : PlatformPostStatus
  error_message : Option String
  platform_video_id : Option String
deriving DecidableEq, Repr

/-- Everything the retry POST handler produces: the HTTP-level response,
the final post and rows, the storage paths removed, the storage path the
video was downloaded from, and the platforms whose adapters were
invoked. -/
structure RetryOutcome where
  response : Except (ℕ × String) Unit
  post : RetryPost
  rows : List RetryRow
  deletedPaths : List String
  downloadedPath : Option String
  adapterCalls : List Platform
deriving Repr

/-- Embeds the retry POST handler of delete-storage/route.ts.  The
target row is looked up by platform; `newFilePath || post.video_file_path`
selects the blob path (404/400 with a requiresVideo signal when absent or
not downloadable); the row is reset to pending with its error cleared,
the single platform's adapter is invoked, and on success the row becomes
uploaded with the video id; if every row of the post is then uploaded or
published, the post flips to pending, the blob is removed once, and the
stored path is cleared.  On adapter failure the row is marked failed with
the message and a 500 is returned. -/
def retryUpload (post : RetryPost) (rows : List RetryRow) (p : Platform)
    (newFilePath : Option String) (storageHas : String → Bool)
    (adapter : Except String UploadResult) : RetryOutcome :=
  match rows.find? (fun r => r.platform == p) with
  | none =>
    { response := .error (404, "Platform record not found"), post := post,
      rows := rows, deletedPaths := [], downloadedPath := none, adapterCalls := [] }
  | some _ =>
    match newFilePath.or post.video_file_path with
    | none =>
      { response := .error (400, "No video file available. Please provide a video file."),
        post := post, rows := rows, deletedPaths := [], downloadedPath := none,
        adapterCalls := [] }
    | some path =>
      if storageHas path = false then
        { response := .error (404,
            "Video file not found in storage. Please provide a new video file."),
          post := post, rows := rows, deletedPaths := [], downloadedPath := none,
          adapterCalls := [] }
      else
        let post1 :=
          match newFilePath with
          | some np =>
            if some np ≠ post.video_file_path then
              { post with video_file_path := some np }
            else post
          | none => post
        let rows1 := rows.map (fun r =>
          if r.platform == p then
            { r with status := .pending, error_message := none }
          else r)
        match adapter with
        | .ok res =>
          let rows2 := rows1.map (fun r =>
            if r.platform == p then
              { r with
                  status := .uploaded
                  error_message := none
                  platform_video_id := some res.videoId }
            else r)
          let allUploaded := rows2.all (fun r =>
            r.status == .uploaded || r.status == .published)
          if allUploaded then
            { response := .ok (),
              post := { post1 with status := .pending, video_file_path := none },
              rows := rows2, deletedPaths := [path], downloadedPath := some path,
              adapterCalls := [p] }
          else
            { response := .ok (), post := post1, rows := rows2,
              deletedPaths := [], downloadedPath := some path, adapterCalls := [p] }
        | .error e =>
          let rows2 := rows1.map (fun r =>
            if r.platform == p then
              { r with status := .failed, error_message := some e }
            else r)
          { response := .error (500, e), post := post1, rows := rows2,
            deletedPaths := [], downloadedPath := some path, adapterCalls := [p] }

/-! ## PostPlatform state machine (create routes, process route in the
storage upload flow, batch upload route, retry handler) -/

/-- The status both create routes give a freshly inserted post_platforms
row. -/
def createdRowStatus : PlatformPostStatus := .pending

/-- The status write the process-upload route performs on the target
row, given the adapter outcome.  The route never reads the row's current
status, so the write ignores it. -/
def processUploadStep (outcome : Except String UploadResult)
    (_current : PlatformPostStatus) : PlatformPostStatus :=
  match outcome with
  | .ok _ => .uploaded
  | .error _ => .failed

/-- The status write the batch upload route (the fan-out body of
upload/route.ts) performs, identical in shape to the process route. -/
def batchUploadStep (outcome : Except String UploadResult)
    (_current : PlatformPostStatus) : PlatformPostStatus :=
  match outcome with
  | .ok _ => .uploaded
  | .error _ => .failed

/-- The successive status writes the retry handler performs on the
target row: first the reset to pending (clearing the error), then the
outcome of the re-upload.  Like the other routes it never reads the
current status. -/
def retryWrites (outcome : Except String UploadResult)
    (_current : PlatformPostStatus) : List PlatformPostStatus :=
  [.pending,
   match outcome with
   | .ok _ => .uploaded
   | .error _ => .failed]

/-! ## Update-schedule PATCH route -/

/-- The scheduled_posts fields the PATCH route reads and writes;
`scheduled_at` is a UTC instant in milliseconds. -/
structure SchedPost where
  status : PostStatus
  scheduled_at : ℤ
  timezone : String
deriving DecidableEq, Repr

/-- A post_platforms row as the PATCH route reads it. -/
structure SchedRow where
  platform : Platform
  platform_video_id : Option String
  status : PlatformPostStatus
deriving DecidableEq, Repr

/-- Everything the PATCH route produces: response, final post row,
final platform rows (the route never writes them), and the platforms
whose vendor APIs were called. -/
structure PatchOutcome where
  response : Except (ℕ × String) Unit
  post : SchedPost
  rows : List SchedRow
  platformCalls : List Platform
deriving Repr

/-- Embeds the PATCH update-schedule route (after auth and ownership
lookup): reject 400 unless the post status is pending or uploading; with
`conv` the UTC instant computed by convertNaiveDateToUTC for the
requested naive time and timezone, reject 400 unless it is strictly in
the future; only then persist the new scheduled_at and timezone and fan
out schedule updates to rows already uploaded with a platform video id
(only YouTube gets an API call; the other platforms are skipped with a
warning). -/
def patchUpdateSchedule (now : ℤ) (post : SchedPost) (rows : List SchedRow)
    (conv : ℤ) (selTz : String) : PatchOutcome :=
  if post.status ≠ PostStatus.pending ∧ post.status ≠ PostStatus.uploading then
    { response := .error (400, "Cannot edit schedule for published or failed posts"),
      post := post, rows := rows, platformCalls := [] }
  else if conv ≤ now then
    { response := .error (400, "Scheduled time must be in the future"),
      post := post, rows := rows, platformCalls := [] }
  else
    { response := .ok (),
      post := { post with scheduled_at := conv, timezone := selTz },
      rows := rows,
      platformCalls := ((rows.filter (fun r =>
          r.platform_video_id.isSome && r.status == PlatformPostStatus.uploaded)).filter
        (fun r => r.platform == Platform.youtube)).map (fun r => r.platform) }

/-! ## YouTube tag validator (youtube.ts, validateYouTubeTags) -/

/-- JS regex `\w` for the ASCII range: letters, digits, underscore. -/
def isWordChar (c : Char) : Bool := c.isAlphanum || c == '_'

/-- JS regex `\s` whitespace characters in the ASCII range. -/
def isSpaceCh (c : Char) : Bool :=
  c == ' ' || c == '\t' || c == '\n' || c == '\r' || c == '\x0b' || c == '\x0c'

/-- A character surviving the sanitizer's two removal regexes: the
explicit punctuation list together with `[^\w\s-]` remove exactly the
characters that are not word characters, whitespace or hyphens. -/
def keepChar (c : Char) : Bool := isWordChar c || isSpaceCh c || c == '-'

/-- JS `replace(/\s+/g, ' ')`: every maximal whitespace run becomes a
single space.  The flag records whether the previous character was
whitespace. -/
def collapseAux : Bool → List Char → List Char
  | _, [] => []
  | inSpace, c :: rest =>
    if isSpaceCh c then
      if inSpace then collapseAux true rest
      else ' ' :: collapseAux true rest
    else c :: collapseAux false rest

/-- The whole-string whitespace collapse, starting outside a run. -/
def collapseWs (l : List Char) : List Char := collapseAux false l

/-- JS `trim()` on the character list. -/
def trimChars (l : List Char) : List Char :=
  ((l.dropWhile isSpaceCh).reverse.dropWhile isSpaceCh).reverse

/-- JS `replace(/^\-+|\-+$/g, '')`: strip leading and trailing hyphen
runs. -/
def stripEdgeHyphens (l : List Char) : List Char :=
  ((l.dropWhile (fun c => c == '-')).reverse.dropWhile (fun c => c == '-')).reverse

/-- Embeds `sanitizeTag` from validateYouTubeTags: remove every
character outside `[\w\s-]`, collapse whitespace runs to single spaces,
trim, reject the empty result, strip edge hyphens, and reject results
that are empty or all-whitespace. -/
def sanitizeTag (tag : List Char) : List Char :=
  if (trimChars (collapseWs (tag.filter keepChar))).length < 1 then []
  else if (stripEdgeHyphens (trimChars (collapseWs (tag.filter keepChar)))).length
      < 1 then []
  else if ((stripEdgeHyphens (trimChars (collapseWs (tag.filter keepChar)))).filter
      (fun c => !(isSpaceCh c))).length == 0 then []
  else stripEdgeHyphens (trimChars (collapseWs (tag.filter keepChar)))

/-- JS `toLowerCase()` on the (ASCII) tag characters. -/
def lowerTag (t : List Char) : List Char := t.map Char.toLower

/-- The serialized length YouTube counts for one tag: tags containing a
space are wrapped in quotes, adding 2 characters. -/
def tagSerLen (t : List Char) : ℕ :=
  if t.contains ' ' then t.length + 2 else t.length

/-- The combined serialized length of a tag list: per-tag lengths plus
one comma separator after the first tag. -/
def serLen (ts : List (List Char)) : ℕ :=
  (ts.map tagSerLen).sum + (ts.length - 1)

/-- Embeds the main loop of `validateYouTubeTags`: trim, sanitize,
truncate to 30 characters (re-trimming), skip case-insensitive
duplicates, and stop (break) as soon as adding a tag would push the
combined serialized length over 500. -/
def processTags : List (List Char) → List (List Char) → List (List Char) → ℕ →
    List (List Char)
  | [], valid, _, _ => valid
  | tag :: rest, valid, seen, total =>
    let t0 := trimChars tag
    if t0.isEmpty then processTags rest valid seen total
    else
      let t1 := sanitizeTag t0
      if t1.isEmpty then processTags rest valid seen total
      else
        let t2 := if t1.length > 30 then trimChars (t1.take 30) else t1
        if t2.isEmpty then processTags rest valid seen total
        else
          let lower := lowerTag t2
          if seen.contains lower then processTags rest valid seen total
          else
            let comma := if valid.isEmpty then 0 else 1
            if total + (tagSerLen t2 + comma) > 500 then valid
            else
              processTags rest (valid ++ [t2]) (seen ++ [lower])
                (total + (tagSerLen t2 + comma))

/-- Embeds `validateYouTubeTags` (youtube.ts): run the loop on the
character lists of the input tags with empty accumulators. -/
def validateYouTubeTags (tags : List String) : List String :=
  (processTags (tags.map String.data) [] [] 0).map (fun l => List.asString l)

/-- Characters permitted in a validated tag: alphanumeric, space,
hyphen, underscore. -/
def validTagChar (c : Char) : Bool :=
  c.isAlphanum || c == ' ' || c == '-' || c == '_'

end SyncSquid

namespace SyncSquid

/-- C3 counterexample: the claim puts a 20MB file in the 5MB-chunk tier
("5MB for files of 20–100MB", with "2MB for files below 20MB"), but the
code's guard is the strict `fileSizeMB > 20`, so a file of exactly 20MB
gets 2MB chunks, not 5MB. -/
theorem C3_chunk_size_boundary_counterexample :
    getOptimalChunkSize 20 = 2 * 1024 * 1024 ∧
    (2 * 1024 * 1024 : ℕ) ≠ 5 * 1024 * 1024 := by
  constructor
  · rfl
  · decide

/-- C3 (amended): the chunk size tiers are 2MB for files of at most 20MB,
5MB for files over 20MB and at most 100MB, 10MB for files over 100MB and
at most 500MB, and 20MB for files over 500MB; in particular 15MB gives
2MB chunks, 50MB gives 5MB, 200MB gives 10MB and 600MB gives 20MB. -/
theorem C3_chunk_size_tiers (s : ℚ) :
    (s ≤ 20 → getOptimalChunkSize s = 2 * 1024 * 1024) ∧
    (20 < s → s ≤ 100 → getOptimalChunkSize s = 5 * 1024 * 1024) ∧
    (100 < s → s ≤ 500 → getOptimalChunkSize s = 10 * 1024 * 1024) ∧
    (500 < s → getOptimalChunkSize s = 20 * 1024 * 1024) := by
  unfold getOptimalChunkSize
  refine ⟨fun h => ?_, fun h1 h2 => ?_, fun h1 h2 => ?_, fun h => ?_⟩
  · rw [if_neg (by linarith), if_neg (by linarith), if_neg (by linarith)]
  · rw [if_neg (by linarith), if_neg (by linarith), if_pos (by linarith)]
  · rw [if_neg (by linarith), if_pos (by linarith)]
  · rw [if_pos (by linarith)]

/-- C3 witness: evaluating the amended tier statement at the spec's four
sample sizes. -/
theorem C3_chunk_size_tiers_witness :
    getOptimalChunkSize 15 = 2 * 1024 * 1024 ∧
    getOptimalChunkSize 50 = 5 * 1024 * 1024 ∧
    getOptimalChunkSize 200 = 10 * 1024 * 1024 ∧
    getOptimalChunkSize 600 = 20 * 1024 * 1024 :=
  ⟨(C3_chunk_size_tiers 15).1 (by norm_num),
   ((C3_chunk_size_tiers 50).2.1 (by norm_num)) (by norm_num),
   ((C3_chunk_size_tiers 200).2.2.1 (by norm_num)) (by norm_num),
   (C3_chunk_size_tiers 600).2.2.2 (by norm_num)⟩

/-- Loop invariant of the Facebook upload retry loop: starting at
`attempt` with `fuel = maxRetries - attempt` iterations left, at least
one and at most `fuel` attempts are executed, the waits between attempts
are exactly `waitWithBackoffDelay` at the consecutive attempt indices,
and if no attempt can succeed the loop uses all its fuel and ends in an
error. -/
theorem fbUploadLoop_spec (fileSizeMB : ℚ) (out : ℕ → FbAttemptOutcome)
    (maxRetries : ℕ) :
    ∀ fuel attempt lastErr, attempt + fuel = maxRetries → 1 ≤ fuel →
      1 ≤ (fbUploadLoop fileSizeMB out maxRetries attempt fuel lastErr).attemptsMade ∧
      (fbUploadLoop fileSizeMB out maxRetries attempt fuel lastErr).attemptsMade ≤ fuel ∧
      (fbUploadLoop fileSizeMB out maxRetries attempt fuel lastErr).delays =
        (List.range
          ((fbUploadLoop fileSizeMB out maxRetries attempt fuel lastErr).attemptsMade - 1)).map
          (fun i => waitWithBackoffDelay fileSizeMB (attempt + i)) ∧
      ((∀ k vid, out k ≠ FbAttemptOutcome.success vid) →
        (fbUploadLoop fileSizeMB out maxRetries attempt fuel lastErr).attemptsMade = fuel ∧
        ∃ msg, (fbUploadLoop fileSizeMB out maxRetries attempt fuel lastErr).result =
          Except.error msg) := by
  intro fuel
  induction fuel with
  | zero => intro attempt lastErr _ h1; exact absurd h1 (by omega)
  | succ fuel ih =>
    intro attempt lastErr hsum _
    have hstep :
        ∀ rest : FbRunResult,
          rest.delays = (List.range (rest.attemptsMade - 1)).map
            (fun i => waitWithBackoffDelay fileSizeMB (attempt + 1 + i)) →
          1 ≤ rest.attemptsMade →
          waitWithBackoffDelay fileSizeMB attempt :: rest.delays =
            (List.range (rest.attemptsMade + 1 - 1)).map
              (fun i => waitWithBackoffDelay fileSizeMB (attempt + i)) := by
      intro rest hd h1
      rw [hd, Nat.add_sub_cancel]
      obtain ⟨m, hm⟩ : ∃ m, rest.attemptsMade = m + 1 := ⟨rest.attemptsMade - 1, by omega⟩
      rw [hm, Nat.add_sub_cancel, List.range_succ_eq_map, List.map_cons, List.map_map]
      refine congrArg₂ List.cons (by simp) (List.map_congr_left ?_)
      intro i _
      exact congrArg (waitWithBackoffDelay fileSizeMB) (by omega)
    cases hout : out attempt with
    | success vid =>
      refine ⟨?_, ?_, ?_, ?_⟩ <;>
        simp only [fbUploadLoop, hout]
      · exact Nat.le_refl 1
      · omega
      · simp
      · intro hall
        exact absurd hout (hall attempt vid)
    | startFailed tr msg =>
      by_cases hc : tr = true ∧ attempt < maxRetries - 1
      · have hfuel : 1 ≤ fuel := by omega
        obtain ⟨hih1, hih2, hih3, hih4⟩ := ih (attempt + 1) (some msg) (by omega) hfuel
        refine ⟨?_, ?_, ?_, ?_⟩ <;>
          simp only [fbUploadLoop, hout, if_pos hc]
        · omega
        · omega
        · exact hstep _ hih3 hih1
        · intro hall
          obtain ⟨hn, m, hm⟩ := hih4 hall
          exact ⟨by omega, m, hm⟩
      · by_cases hlast : attempt = maxRetries - 1
        · have hfuel0 : fuel = 0 := by omega
          refine ⟨?_, ?_, ?_, ?_⟩ <;>
            simp only [fbUploadLoop, hout, if_neg hc, if_pos hlast]
          · exact Nat.le_refl 1
          · omega
          · simp
          · intro _
            exact ⟨by omega, msg, rfl⟩
        · have hfuel : 1 ≤ fuel := by omega
          obtain ⟨hih1, hih2, hih3, hih4⟩ := ih (attempt + 1) (some msg) (by omega) hfuel
          refine ⟨?_, ?_, ?_, ?_⟩ <;>
            simp only [fbUploadLoop, hout, if_neg hc, if_neg hlast]
          · omega
          · omega
          · exact hstep _ hih3 hih1
          · intro hall
            obtain ⟨hn, m, hm⟩ := hih4 hall
            exact ⟨by omega, m, hm⟩
    | bodyError msg =>
      by_cases hlast : attempt = maxRetries - 1
      · have hfuel0 : fuel = 0 := by omega
        refine ⟨?_, ?_, ?_, ?_⟩ <;>
          simp only [fbUploadLoop, hout, if_pos hlast]
        · exact Nat.le_refl 1
        · omega
        · simp
        · intro _
          exact ⟨by omega, msg, rfl⟩
      · have hfuel : 1 ≤ fuel := by omega
        obtain ⟨hih1, hih2, hih3, hih4⟩ := ih (attempt + 1) (some msg) (by omega) hfuel
        refine ⟨?_, ?_, ?_, ?_⟩ <;>
          simp only [fbUploadLoop, hout, if_neg hlast]
        · omega
        · omega
        · exact hstep _ hih3 hih1
        · intro hall
          obtain ⟨hn, m, hm⟩ := hih4 hall
          exact ⟨by omega, m, hm⟩

/-- C4 counterexample: with a 10MB file and a start phase that fails
every attempt with a NON-transient error, the loop still executes all 3
attempts (with backoff waits 2000ms and 4000ms between them) instead of
failing immediately after the first attempt: the attempt-level catch in
`uploadVideoToFacebook` retries every error, transient or not, until the
attempt budget is exhausted. -/
theorem C4_fb_retry_counterexample :
    (uploadVideoToFacebookRun 10
        (fun _ => FbAttemptOutcome.startFailed false "permanent failure")).attemptsMade = 3 ∧
    (uploadVideoToFacebookRun 10
        (fun _ => FbAttemptOutcome.startFailed false "permanent failure")).result =
      Except.error "permanent failure" ∧
    (uploadVideoToFacebookRun 10
        (fun _ => FbAttemptOutcome.startFailed false "permanent failure")).delays =
      [2000, 4000] ∧
    (3 : ℕ) ≠ 1 := by
  refine ⟨?_, ?_, ?_, by decide⟩ <;>
    · simp [uploadVideoToFacebookRun, fbUploadLoop, fbMaxRetries, waitWithBackoffDelay]
      norm_num

/-- C4 (amended): every failed attempt of the Facebook upload — whether
the platform marked it transient or not — is retried with exponential
backoff `baseDelay * 2 ^ attempt` until the total attempt budget
`fbMaxRetries` (3, or 5 when the file exceeds 100MB; base delay 2s, or 5s
above 100MB) is exhausted; only then does the upload fail.  Non-transient
errors are NOT failed immediately: if no attempt can succeed, exactly
`fbMaxRetries` attempts are executed before the error is surfaced. -/
theorem C4_fb_retry_policy (fileSizeMB : ℚ) (out : ℕ → FbAttemptOutcome) :
    1 ≤ (uploadVideoToFacebookRun fileSizeMB out).attemptsMade ∧
    (uploadVideoToFacebookRun fileSizeMB out).attemptsMade ≤ fbMaxRetries fileSizeMB ∧
    (uploadVideoToFacebookRun fileSizeMB out).delays =
      (List.range ((uploadVideoToFacebookRun fileSizeMB out).attemptsMade - 1)).map
        (waitWithBackoffDelay fileSizeMB) ∧
    ((∀ k vid, out k ≠ FbAttemptOutcome.success vid) →
      (uploadVideoToFacebookRun fileSizeMB out).attemptsMade = fbMaxRetries fileSizeMB ∧
      ∃ msg, (uploadVideoToFacebookRun fileSizeMB out).result = Except.error msg) ∧
    (fileSizeMB ≤ 100 → fbMaxRetries fileSizeMB = 3 ∧
      ∀ a, waitWithBackoffDelay fileSizeMB a = 2000 * 2 ^ a) ∧
    (100 < fileSizeMB → fbMaxRetries fileSizeMB = 5 ∧
      ∀ a, waitWithBackoffDelay fileSizeMB a = 5000 * 2 ^ a) := by
  have hmax : 1 ≤ fbMaxRetries fileSizeMB := by
    unfold fbMaxRetries; split <;> omega
  have h := fbUploadLoop_spec fileSizeMB out (fbMaxRetries fileSizeMB)
    (fbMaxRetries fileSizeMB) 0 none (by omega) hmax
  refine ⟨h.1, h.2.1, ?_, h.2.2.2, ?_, ?_⟩
  · refine h.2.2.1.trans (List.map_congr_left ?_)
    intro i _
    exact congrArg (waitWithBackoffDelay fileSizeMB) (by omega)
  · intro hle
    have hnot : ¬ fileSizeMB > 100 := by linarith
    exact ⟨by unfold fbMaxRetries; rw [if_neg hnot],
      fun a => by unfold waitWithBackoffDelay; rw [if_neg hnot]⟩
  · intro hgt
    exact ⟨by unfold fbMaxRetries; rw [if_pos hgt],
      fun a => by unfold waitWithBackoffDelay; rw [if_pos hgt]⟩

/-- C4 witness: the amended policy evaluated for a 10MB file whose
attempts all fail in the upload body: 3 attempts, delays 2000ms and
4000ms, ending in an error. -/
theorem C4_fb_retry_policy_witness :
    (uploadVideoToFacebookRun 10 (fun _ => FbAttemptOutcome.bodyError "boom")).attemptsMade
        = fbMaxRetries 10 ∧
    (uploadVideoToFacebookRun 10 (fun _ => FbAttemptOutcome.bodyError "boom")).delays =
      (List.range
        ((uploadVideoToFacebookRun 10 (fun _ => FbAttemptOutcome.bodyError "boom")).attemptsMade
          - 1)).map (waitWithBackoffDelay 10) ∧
    fbMaxRetries 10 = 3 := by
  have h := C4_fb_retry_policy 10 (fun _ => FbAttemptOutcome.bodyError "boom")
  exact ⟨(h.2.2.2.1 (fun k vid hk => FbAttemptOutcome.noConfusion hk)).1,
    h.2.2.1, (h.2.2.2.2.1 (by norm_num)).1⟩

/-- C6: whenever a getValid...AccessToken function returns a token (for
YouTube, TikTok or Facebook), a refresh call against the platform's
token endpoint was performed before returning if and only if the stored
expiry satisfies `expiresAt - now < 5 minutes`; and outside that window
the stored access token is returned unchanged, with no refresh call. -/
theorem C6_token_refresh_threshold (now : ℤ) (conn : Connection)
    (refresh : RefreshOutcome) (r : TokenResult) :
    (getValidYouTubeAccessToken now conn refresh = Except.ok r →
      (r.refreshCalled = true ↔ conn.expires_at.getD 0 - now < fiveMinutesMs)) ∧
    (getValidTikTokAccessToken now conn refresh = Except.ok r →
      (r.refreshCalled = true ↔ conn.expires_at.getD 0 - now < fiveMinutesMs)) ∧
    (getValidFacebookAccessToken now conn refresh = Except.ok r →
      (r.refreshCalled = true ↔ conn.expires_at.getD 0 - now < fiveMinutesMs)) ∧
    (¬ (conn.expires_at.getD 0 - now < fiveMinutesMs) →
      getValidYouTubeAccessToken now conn refresh =
        Except.ok { token := conn.access_token, refreshCalled := false } ∧
      getValidTikTokAccessToken now conn refresh =
        Except.ok { token := conn.access_token, refreshCalled := false } ∧
      getValidFacebookAccessToken now conn refresh =
        Except.ok { token := conn.access_token, refreshCalled := false }) := by
  by_cases hw : conn.expires_at.getD 0 - now < fiveMinutesMs
  · simp only [getValidYouTubeAccessToken, getValidTikTokAccessToken,
      getValidFacebookAccessToken, if_pos hw]
    refine ⟨?_, ?_, ?_, fun h => absurd hw h⟩
    · cases conn.refresh_token with
      | none => intro h; exact Except.noConfusion h
      | some rt =>
        cases refresh with
        | ok t e =>
          intro h
          injection h with h
          subst h
          simpa using hw
        | fail m => intro h; exact Except.noConfusion h
    · cases conn.refresh_token with
      | none => intro h; exact Except.noConfusion h
      | some rt =>
        cases refresh with
        | ok t e =>
          intro h
          injection h with h
          subst h
          simpa using hw
        | fail m => intro h; exact Except.noConfusion h
    · cases refresh with
      | ok t e =>
        intro h
        injection h with h
        subst h
        simpa using hw
      | fail m =>
        intro h
        injection h with h
        subst h
        simpa using hw
  · simp only [getValidYouTubeAccessToken, getValidTikTokAccessToken,
      getValidFacebookAccessToken, if_neg hw]
    refine ⟨?_, ?_, ?_, fun _ => ⟨by simp, by simp, by simp⟩⟩ <;>
    · intro h
      injection h with h
      subst h
      simpa using hw

/-- C6 witness: a token expiring in 3 minutes (expiry 180000ms, now 0)
triggers a refresh before use, and a token expiring in 10 minutes
(600000ms) is returned unchanged with no refresh call, on all three
platforms. -/
theorem C6_token_refresh_threshold_witness :
    (({ token := "new", refreshCalled := true } : TokenResult).refreshCalled = true ↔
      (some (180000 : ℤ)).getD 0 - 0 < fiveMinutesMs) ∧
    (getValidYouTubeAccessToken 0 ⟨"tok", some "r", some 600000⟩ (.ok "new" 3600) =
        Except.ok { token := "tok", refreshCalled := false } ∧
      getValidTikTokAccessToken 0 ⟨"tok", some "r", some 600000⟩ (.ok "new" 3600) =
        Except.ok { token := "tok", refreshCalled := false } ∧
      getValidFacebookAccessToken 0 ⟨"tok", some "r", some 600000⟩ (.ok "new" 3600) =
        Except.ok { token := "tok", refreshCalled := false }) :=
  ⟨(C6_token_refresh_threshold 0 ⟨"tok", some "r", some 180000⟩ (.ok "new" 3600)
      ⟨"new", true⟩).1 (by decide),
   (C6_token_refresh_threshold 0 ⟨"tok", some "r", some 600000⟩ (.ok "new" 3600)
      ⟨"tok", false⟩).2.2.2 (by decide)⟩

/-- C7 counterexample: for YouTube, a connection whose token expires in
3 minutes (inside the refresh window) with a failing refresh call makes
`getValidYouTubeAccessToken` raise the refresh error instead of
returning the existing (stale) stored token: the claim's "for every
platform" fails for YouTube (and TikTok, which is identical). -/
theorem C7_soft_refresh_counterexample :
    getValidYouTubeAccessToken 0 ⟨"stale", some "r", some 180000⟩
        (RefreshOutcome.fail "endpoint down") =
      Except.error "Failed to refresh token: endpoint down" ∧
    (Except.error "Failed to refresh token: endpoint down" :
        Except String TokenResult) ≠
      Except.ok { token := "stale", refreshCalled := true } := by
  exact ⟨by decide, by decide⟩

/-- C7 (amended): the soft-failure behaviour holds only for Facebook:
inside the 5-minute window a failing refresh makes
`getValidFacebookAccessToken` return the existing (possibly stale)
stored token, while `getValidYouTubeAccessToken` and
`getValidTikTokAccessToken` propagate the refresh failure as an error
(and also raise when no refresh token is stored). -/
theorem C7_soft_refresh_facebook_only (now : ℤ) (conn : Connection)
    (msg : String) (hw : conn.expires_at.getD 0 - now < fiveMinutesMs) :
    getValidFacebookAccessToken now conn (RefreshOutcome.fail msg) =
      Except.ok { token := conn.access_token, refreshCalled := true } ∧
    (∀ rt, conn.refresh_token = some rt →
      getValidYouTubeAccessToken now conn (RefreshOutcome.fail msg) =
        Except.error ("Failed to refresh token: " ++ msg) ∧
      getValidTikTokAccessToken now conn (RefreshOutcome.fail msg) =
        Except.error ("Failed to refresh token: " ++ msg)) ∧
    (conn.refresh_token = none →
      getValidYouTubeAccessToken now conn (RefreshOutcome.fail msg) =
        Except.error "No refresh token available" ∧
      getValidTikTokAccessToken now conn (RefreshOutcome.fail msg) =
        Except.error "No refresh token available") := by
  simp only [getValidYouTubeAccessToken, getValidTikTokAccessToken,
    getValidFacebookAccessToken, if_pos hw]
  refine ⟨by simp, fun rt hrt => ?_, fun hrt => ?_⟩ <;> rw [hrt] <;> exact ⟨by simp, by simp⟩

/-- C7 witness: the amended statement evaluated at a connection expiring
in 3 minutes with refresh token "r" and a failing refresh. -/
theorem C7_soft_refresh_facebook_only_witness :
    getValidFacebookAccessToken 0 ⟨"stale", some "r", some 180000⟩
        (RefreshOutcome.fail "down") =
      Except.ok { token := "stale", refreshCalled := true } ∧
    getValidYouTubeAccessToken 0 ⟨"stale", some "r", some 180000⟩
        (RefreshOutcome.fail "down") =
      Except.error ("Failed to refresh token: " ++ "down") :=
  have h := C7_soft_refresh_facebook_only 0 ⟨"stale", some "r", some 180000⟩
    "down" (by decide)
  ⟨h.1, (h.2.1 "r" rfl).1⟩

/-- The row written for a platform depends only on that platform's own
adapter outcome. -/
theorem publishToAll_rows (platforms : List Platform)
    (ad : Platform → Except String UploadResult) :
    (publishToAll platforms ad).rows =
      platforms.map (fun q => (q, (platformAttempt (ad q)).1)) := by
  simp [publishToAll, List.map_map]

/-- all over a mapped list, for maps that change the element type. -/
theorem listAllMap {α β : Type} (l : List α) (f : α → β) (p : β → Bool) :
    (l.map f).all p = l.all (fun x => p (f x)) := by
  induction l with
  | nil => rfl
  | cons a as ih => simp [ih]

/-- The blob-deletion flag is the conjunction of the per-platform
success flags. -/
theorem publishToAll_blobDeleted (platforms : List Platform)
    (ad : Platform → Except String UploadResult) :
    (publishToAll platforms ad).blobDeleted =
      platforms.all (fun q => (platformAttempt (ad q)).2) := by
  show (platforms.map (fun p => (p, platformAttempt (ad p)))).all (fun x => x.2.2) = _
  rw [listAllMap]

/-- The post status derived by the join. -/
theorem publishToAll_postStatus (platforms : List Platform)
    (ad : Platform → Except String UploadResult) :
    (publishToAll platforms ad).postStatus =
      if platforms.all (fun q => (platformAttempt (ad q)).2) then
        PostStatus.pending
      else PostStatus.failed := by
  show (if (platforms.map (fun p => (p, platformAttempt (ad p)))).all (fun x => x.2.2)
      then PostStatus.pending else PostStatus.failed) = _
  rw [listAllMap]

/-- The success flag of one attempt holds exactly when the adapter
succeeded. -/
theorem platformAttempt_snd (o : Except String UploadResult) :
    (platformAttempt o).2 = true ↔ ∃ r, o = Except.ok r := by
  cases o with
  | ok r => simp [platformAttempt]
  | error e =>
    simp only [platformAttempt]
    exact ⟨fun h => Bool.noConfusion h, fun ⟨r, hr⟩ => Except.noConfusion hr⟩

/-- C1: in the fan-out, each platform's row is a function of its own
adapter outcome alone (so one platform's exception never affects
another's attempt or recorded outcome); the transient blob is deleted
exactly when every platform's adapter succeeded; and when some platform
fails, its row is recorded as failed with the error message, the post is
marked failed, the blob is retained, and every succeeding platform's row
is still recorded as uploaded. -/
theorem C1_fanout_isolation_and_blob_retention (platforms : List Platform)
    (adapters adapters2 : Platform → Except String UploadResult) :
    ((publishToAll platforms adapters).rows =
      platforms.map (fun q => (q, (platformAttempt (adapters q)).1))) ∧
    (∀ p : Platform, adapters p = adapters2 p →
      ((publishToAll platforms adapters).rows.filter (fun x => x.1 == p)) =
        ((publishToAll platforms adapters2).rows.filter (fun x => x.1 == p))) ∧
    ((publishToAll platforms adapters).blobDeleted = true ↔
      ∀ p ∈ platforms, ∃ r, adapters p = Except.ok r) ∧
    (∀ p ∈ platforms, ∀ e, adapters p = Except.error e →
      (p, ({ status := .failed, error_message := some e,
             platform_video_id := none } : PlatformRow)) ∈
          (publishToAll platforms adapters).rows ∧
      (publishToAll platforms adapters).postStatus = PostStatus.failed ∧
      (publishToAll platforms adapters).blobDeleted = false ∧
      ∀ q ∈ platforms, ∀ r, adapters q = Except.ok r →
        (q, ({ status := .uploaded, error_message := none,
               platform_video_id := some r.videoId } : PlatformRow)) ∈
            (publishToAll platforms adapters).rows) := by
  refine ⟨publishToAll_rows platforms adapters, ?_, ?_, ?_⟩
  · intro p hp
    rw [publishToAll_rows platforms adapters, publishToAll_rows platforms adapters2]
    induction platforms with
    | nil => rfl
    | cons a as ih =>
      simp only [List.map_cons, List.filter_cons]
      by_cases ha : a = p
      · subst ha
        rw [hp, ih]
      · simp only [show (a == p) = false by simp [ha], Bool.false_eq_true,
          if_false]
        exact ih
  · rw [publishToAll_blobDeleted, List.all_eq_true]
    exact forall₂_congr (fun p _ => platformAttempt_snd (adapters p))
  · intro p hp e he
    have hallf : platforms.all (fun q => (platformAttempt (adapters q)).2) = false := by
      rw [List.all_eq_false]
      exact ⟨p, hp, by simp [platformAttempt, he]⟩
    refine ⟨?_, ?_, ?_, ?_⟩
    · rw [publishToAll_rows]
      exact List.mem_map.2 ⟨p, hp, by rw [he]; rfl⟩
    · rw [publishToAll_postStatus, hallf]
      rfl
    · rw [publishToAll_blobDeleted, hallf]
    · intro q hq r hr
      rw [publishToAll_rows]
      exact List.mem_map.2 ⟨q, hq, by rw [hr]; rfl⟩

/-- C1 witness: three platforms where the Facebook adapter always
throws — YouTube and TikTok are still recorded as uploaded, Facebook is
marked failed with its message, the post is failed, and the blob is
retained. -/
theorem C1_fanout_isolation_and_blob_retention_witness :
    ((Platform.facebook,
        ({ status := .failed, error_message := some "B throws",
           platform_video_id := none } : PlatformRow)) ∈
      (publishToAll [Platform.youtube, Platform.facebook, Platform.tiktok]
        (fun p => match p with
          | .facebook => Except.error "B throws"
          | _ => Except.ok ⟨"vid", none⟩)).rows) ∧
    (publishToAll [Platform.youtube, Platform.facebook, Platform.tiktok]
        (fun p => match p with
          | .facebook => Except.error "B throws"
          | _ => Except.ok ⟨"vid", none⟩)).postStatus = PostStatus.failed ∧
    (publishToAll [Platform.youtube, Platform.facebook, Platform.tiktok]
        (fun p => match p with
          | .facebook => Except.error "B throws"
          | _ => Except.ok ⟨"vid", none⟩)).blobDeleted = false ∧
    ((Platform.youtube,
        ({ status := .uploaded, error_message := none,
           platform_video_id := some "vid" } : PlatformRow)) ∈
      (publishToAll [Platform.youtube, Platform.facebook, Platform.tiktok]
        (fun p => match p with
          | .facebook => Except.error "B throws"
          | _ => Except.ok ⟨"vid", none⟩)).rows) :=
  have h := (C1_fanout_isolation_and_blob_retention
    [Platform.youtube, Platform.facebook, Platform.tiktok]
    (fun p => match p with
      | .facebook => Except.error "B throws"
      | _ => Except.ok ⟨"vid", none⟩)
    (fun p => match p with
      | .facebook => Except.error "B throws"
      | _ => Except.ok ⟨"vid", none⟩)).2.2.2
    Platform.facebook (by decide) "B throws" rfl
  ⟨h.1, h.2.1, h.2.2.1, h.2.2.2 Platform.youtube (by decide) ⟨"vid", none⟩ rfl⟩

/-- C2: retrying a post with a failed platform row invokes only that
platform's adapter, downloading from the retained blob path or a newly
supplied one; on adapter success the row becomes uploaded with its error
message cleared and the video id recorded, and if afterwards every row
of the post is uploaded or published, the post status flips to pending,
the transient blob is deleted exactly once, and the stored
video_file_path is cleared (otherwise no deletion happens). -/
theorem C2_retry_completion (post : RetryPost) (rows : List RetryRow)
    (p : Platform) (newFilePath : Option String) (storageHas : String → Bool)
    (res : UploadResult) (row0 : RetryRow) (path : String)
    (out : RetryOutcome)
    (hfind : rows.find? (fun r => r.platform == p) = some row0)
    (hfailed : row0.status = PlatformPostStatus.failed)
    (hpath : newFilePath.or post.video_file_path = some path)
    (hstorage : storageHas path = true)
    (hout : retryUpload post rows p newFilePath storageHas (Except.ok res) = out) :
    out.adapterCalls = [p] ∧
    out.downloadedPath = some path ∧
    out.response = Except.ok () ∧
    (∀ r ∈ out.rows, r.platform = p →
      r.status = PlatformPostStatus.uploaded ∧ r.error_message = none ∧
      r.platform_video_id = some res.videoId) ∧
    ((∀ r ∈ out.rows, r.status = PlatformPostStatus.uploaded ∨
        r.status = PlatformPostStatus.published) →
      out.post.status = PostStatus.pending ∧
      out.deletedPaths = [path] ∧
      out.post.video_file_path = none) ∧
    (¬ (∀ r ∈ out.rows, r.status = PlatformPostStatus.uploaded ∨
        r.status = PlatformPostStatus.published) →
      out.deletedPaths = []) := by
  subst hout
  simp only [retryUpload, hfind, hpath, hstorage]
  have hrow :
      ∀ r ∈ ((rows.map (fun r =>
          if r.platform == p then
            { r with status := PlatformPostStatus.pending, error_message := none }
          else r)).map (fun r =>
          if r.platform == p then
            { r with
                status := PlatformPostStatus.uploaded
                error_message := none
                platform_video_id := some res.videoId }
          else r)), r.platform = p →
        r.status = PlatformPostStatus.uploaded ∧ r.error_message = none ∧
        r.platform_video_id = some res.videoId := by
    intro r hr hrp
    obtain ⟨r1, hr1, rfl⟩ := List.mem_map.1 hr
    obtain ⟨r0, _, rfl⟩ := List.mem_map.1 hr1
    by_cases h0 : (r0.platform == p) = true
    · simp [h0]
    · exfalso
      apply h0
      rw [if_neg h0] at hrp
      rw [if_neg h0] at hrp
      simp [hrp]
  by_cases hall : ((rows.map (fun r =>
      if r.platform == p then
        { r with status := PlatformPostStatus.pending, error_message := none }
      else r)).map (fun r =>
      if r.platform == p then
        { r with
            status := PlatformPostStatus.uploaded
            error_message := none
            platform_video_id := some res.videoId }
      else r)).all (fun r =>
        r.status == PlatformPostStatus.uploaded ||
        r.status == PlatformPostStatus.published) = true
  · simp only [hall, if_true, Bool.true_eq_false, if_false, reduceIte]
    refine ⟨by trivial, by trivial, by trivial, hrow,
      fun _ => ⟨by trivial, by trivial, by trivial⟩, fun hnot => ?_⟩
    exfalso
    apply hnot
    intro r hr
    have := List.all_eq_true.1 hall r hr
    simpa using this
  · simp only [hall, if_false, Bool.true_eq_false, reduceIte]
    refine ⟨by trivial, by trivial, by trivial, hrow, fun hprem => ?_,
      fun _ => by trivial⟩
    exfalso
    apply hall
    rw [List.all_eq_true]
    intro r hr
    rcases hprem r hr with h | h <;> simp [h]

/-- C2 witness: a post with a YouTube row already uploaded and a failed
Facebook row; retrying Facebook with the retained path succeeds, flips
the post to pending, deletes the blob exactly once, and invokes only the
Facebook adapter. -/
theorem C2_retry_completion_witness :
    (retryUpload ⟨PostStatus.failed, some "u/a.mp4"⟩
        [⟨Platform.youtube, .uploaded, none, some "y"⟩,
         ⟨Platform.facebook, .failed, some "boom", none⟩]
        Platform.facebook none (fun _ => true)
        (Except.ok ⟨"fb1", none⟩)).post.status = PostStatus.pending ∧
    (retryUpload ⟨PostStatus.failed, some "u/a.mp4"⟩
        [⟨Platform.youtube, .uploaded, none, some "y"⟩,
         ⟨Platform.facebook, .failed, some "boom", none⟩]
        Platform.facebook none (fun _ => true)
        (Except.ok ⟨"fb1", none⟩)).deletedPaths = ["u/a.mp4"] ∧
    (retryUpload ⟨PostStatus.failed, some "u/a.mp4"⟩
        [⟨Platform.youtube, .uploaded, none, some "y"⟩,
         ⟨Platform.facebook, .failed, some "boom", none⟩]
        Platform.facebook none (fun _ => true)
        (Except.ok ⟨"fb1", none⟩)).adapterCalls = [Platform.facebook] :=
  have h := C2_retry_completion ⟨PostStatus.failed, some "u/a.mp4"⟩
    [⟨Platform.youtube, .uploaded, none, some "y"⟩,
     ⟨Platform.facebook, .failed, some "boom", none⟩]
    Platform.facebook none (fun _ => true) ⟨"fb1", none⟩
    ⟨Platform.facebook, .failed, some "boom", none⟩ "u/a.mp4"
    (retryUpload ⟨PostStatus.failed, some "u/a.mp4"⟩
      [⟨Platform.youtube, .uploaded, none, some "y"⟩,
       ⟨Platform.facebook, .failed, some "boom", none⟩]
      Platform.facebook none (fun _ => true)
      (Except.ok ⟨"fb1", none⟩))
    (by decide) rfl rfl rfl rfl
  ⟨(h.2.2.2.2.1 (by decide)).1, (h.2.2.2.2.1 (by decide)).2.1, h.1⟩

/-- C9 counterexample: the process-upload operation applied to a row
whose status is already 'uploaded' — not a retry issued after a
failure — happily re-runs the upload and, when the adapter fails,
demotes the row to 'failed': no route guards on the current status, so
the claim that terminal rows are never re-uploaded or demoted except by
retry-after-failure is false. -/
theorem C9_state_machine_counterexample :
    processUploadStep (Except.error "boom") PlatformPostStatus.uploaded =
      PlatformPostStatus.failed ∧
    PlatformPostStatus.uploaded ≠ PlatformPostStatus.failed :=
  ⟨rfl, by decide⟩

/-- C9 (amended): rows are created in 'pending'; the process-upload and
batch-upload operations always write 'uploaded' or 'failed' (never
'pending', so 'failed' returns to 'pending' only through the retry
handler's explicit reset); the retry handler writes 'pending' and then
'uploaded' or 'failed'.  However none of the operations reads the
current status: their writes are identical on every starting status, so
rows in 'uploaded' or 'published' are re-uploaded or demoted by any
process/batch/retry invocation, not only by a retry issued after a
failure. -/
theorem C9_state_machine (o : Except String UploadResult)
    (s s2 : PlatformPostStatus) :
    createdRowStatus = PlatformPostStatus.pending ∧
    (processUploadStep o s = PlatformPostStatus.uploaded ∨
      processUploadStep o s = PlatformPostStatus.failed) ∧
    (batchUploadStep o s = PlatformPostStatus.uploaded ∨
      batchUploadStep o s = PlatformPostStatus.failed) ∧
    processUploadStep o s ≠ PlatformPostStatus.pending ∧
    batchUploadStep o s ≠ PlatformPostStatus.pending ∧
    (∃ fin, retryWrites o s = [PlatformPostStatus.pending, fin] ∧
      (fin = PlatformPostStatus.uploaded ∨ fin = PlatformPostStatus.failed)) ∧
    processUploadStep o s = processUploadStep o s2 ∧
    batchUploadStep o s = batchUploadStep o s2 ∧
    retryWrites o s = retryWrites o s2 := by
  cases o with
  | ok r =>
    exact ⟨rfl, Or.inl rfl, Or.inl rfl,
      fun h => PlatformPostStatus.noConfusion h,
      fun h => PlatformPostStatus.noConfusion h,
      ⟨PlatformPostStatus.uploaded, rfl, Or.inl rfl⟩, rfl, rfl, rfl⟩
  | error e =>
    exact ⟨rfl, Or.inr rfl, Or.inr rfl,
      fun h => PlatformPostStatus.noConfusion h,
      fun h => PlatformPostStatus.noConfusion h,
      ⟨PlatformPostStatus.failed, rfl, Or.inr rfl⟩, rfl, rfl, rfl⟩

/-- C10: when the converted scheduled time is not strictly in the
future, or the post status is neither pending nor uploading, the PATCH
route rejects with a 400 before any write: the post row and all platform
rows are unchanged and no platform API call is made. -/
theorem C10_schedule_update_atomicity (now conv : ℤ) (post : SchedPost)
    (rows : List SchedRow) (selTz : String)
    (hreject : (post.status ≠ PostStatus.pending ∧
      post.status ≠ PostStatus.uploading) ∨ conv ≤ now) :
    (∃ m, (patchUpdateSchedule now post rows conv selTz).response =
      Except.error (400, m)) ∧
    (patchUpdateSchedule now post rows conv selTz).post = post ∧
    (patchUpdateSchedule now post rows conv selTz).rows = rows ∧
    (patchUpdateSchedule now post rows conv selTz).platformCalls = [] := by
  unfold patchUpdateSchedule
  by_cases hs : post.status ≠ PostStatus.pending ∧ post.status ≠ PostStatus.uploading
  · rw [if_pos hs]
    exact ⟨⟨_, rfl⟩, rfl, rfl, rfl⟩
  · rw [if_neg hs]
    have hc : conv ≤ now := hreject.resolve_left hs
    rw [if_pos hc]
    exact ⟨⟨_, rfl⟩, rfl, rfl, rfl⟩

/-- C10 witness: a pending post whose requested time 50 is not after
now = 100 is rejected with everything unchanged and no platform call. -/
theorem C10_schedule_update_atomicity_witness :
    (patchUpdateSchedule 100 ⟨PostStatus.pending, 0, "UTC"⟩
        [⟨Platform.youtube, some "y", PlatformPostStatus.uploaded⟩] 50 "UTC").post =
      ⟨PostStatus.pending, 0, "UTC"⟩ ∧
    (patchUpdateSchedule 100 ⟨PostStatus.pending, 0, "UTC"⟩
        [⟨Platform.youtube, some "y", PlatformPostStatus.uploaded⟩] 50 "UTC").rows =
      [⟨Platform.youtube, some "y", PlatformPostStatus.uploaded⟩] ∧
    (patchUpdateSchedule 100 ⟨PostStatus.pending, 0, "UTC"⟩
        [⟨Platform.youtube, some "y", PlatformPostStatus.uploaded⟩] 50 "UTC").platformCalls =
      [] :=
  have h := C10_schedule_update_atomicity 100 50 ⟨PostStatus.pending, 0, "UTC"⟩
    [⟨Platform.youtube, some "y", PlatformPostStatus.uploaded⟩] "UTC"
    (Or.inr (by decide))
  ⟨h.2.1, h.2.2.1, h.2.2.2⟩

/-- Characters of the whitespace collapse are either the single space
it emits for a run or non-whitespace characters of the input. -/
theorem mem_collapseAux (l : List Char) :
    ∀ b c, c ∈ collapseAux b l → c = ' ' ∨ (c ∈ l ∧ isSpaceCh c = false) := by
  induction l with
  | nil => intro b c h; exact absurd h (List.not_mem_nil c)
  | cons a as ih =>
    intro b c h
    by_cases ha : isSpaceCh a = true
    · by_cases hb : b = true
      · rw [show collapseAux b (a :: as) = collapseAux true as by
          simp [collapseAux, ha, hb]] at h
        rcases ih true c h with h1 | ⟨h2, h3⟩
        · exact Or.inl h1
        · exact Or.inr ⟨List.mem_cons_of_mem a h2, h3⟩
      · rw [show collapseAux b (a :: as) = ' ' :: collapseAux true as by
          simp [collapseAux, ha, hb]] at h
        rcases List.mem_cons.1 h with h1 | h1
        · exact Or.inl h1
        · rcases ih true c h1 with h2 | ⟨h3, h4⟩
          · exact Or.inl h2
          · exact Or.inr ⟨List.mem_cons_of_mem a h3, h4⟩
    · rw [show collapseAux b (a :: as) = a :: collapseAux false as by
        simp [collapseAux, ha]] at h
      rcases List.mem_cons.1 h with h1 | h1
      · refine Or.inr ⟨?_, ?_⟩
        · rw [h1]; exact List.mem_cons_self a as
        · rw [h1]; simpa using ha
      · rcases ih false c h1 with h2 | ⟨h3, h4⟩
        · exact Or.inl h2
        · exact Or.inr ⟨List.mem_cons_of_mem a h3, h4⟩

/-- Trimming keeps a subset of the characters. -/
theorem mem_trimChars {l : List Char} {c : Char} (h : c ∈ trimChars l) :
    c ∈ l := by
  unfold trimChars at h
  rw [List.mem_reverse] at h
  have h2 := (List.dropWhile_sublist isSpaceCh).subset h
  rw [List.mem_reverse] at h2
  exact (List.dropWhile_sublist isSpaceCh).subset h2

/-- Stripping edge hyphens keeps a subset of the characters. -/
theorem mem_stripEdgeHyphens {l : List Char} {c : Char}
    (h : c ∈ stripEdgeHyphens l) : c ∈ l := by
  unfold stripEdgeHyphens at h
  rw [List.mem_reverse] at h
  have h2 := (List.dropWhile_sublist (fun c => c == '-')).subset h
  rw [List.mem_reverse] at h2
  exact (List.dropWhile_sublist (fun c => c == '-')).subset h2

/-- Trimming does not lengthen a string. -/
theorem trimChars_length_le (l : List Char) :
    (trimChars l).length ≤ l.length := by
  unfold trimChars
  rw [List.length_reverse]
  have h1 := (List.dropWhile_sublist
    (l := (l.dropWhile isSpaceCh).reverse) isSpaceCh).length_le
  rw [List.length_reverse] at h1
  exact h1.trans (List.dropWhile_sublist isSpaceCh).length_le

/-- Every character of a sanitized tag is alphanumeric, a space, a
hyphen or an underscore. -/
theorem sanitizeTag_chars {t : List Char} {c : Char}
    (h : c ∈ sanitizeTag t) : validTagChar c = true := by
  unfold sanitizeTag at h
  split_ifs at h with h1 h2 h3
  · exact absurd h (List.not_mem_nil c)
  · exact absurd h (List.not_mem_nil c)
  · exact absurd h (List.not_mem_nil c)
  · have hc := mem_trimChars (mem_stripEdgeHyphens h)
    rcases mem_collapseAux _ false c hc with heq | ⟨hmem, hns⟩
    · subst heq; decide
    · obtain ⟨_, hkeep⟩ := List.mem_filter.1 hmem
      unfold keepChar isWordChar at hkeep
      unfold validTagChar
      simp only [Bool.or_eq_true] at hkeep ⊢
      rcases hkeep with ((h | h) | h) | h
      · exact Or.inl (Or.inl (Or.inl h))
      · exact Or.inr h
      · rw [h] at hns; exact absurd hns (by simp)
      · exact Or.inl (Or.inr h)

/-- Appending one tag to a serialized tag list adds its serialized
length plus a comma when the list was nonempty. -/
theorem serLen_append_singleton (ts : List (List Char)) (t : List Char) :
    serLen (ts ++ [t]) =
      serLen ts + (tagSerLen t + (if ts.isEmpty then 0 else 1)) := by
  cases ts with
  | nil => simp [serLen]
  | cons a as =>
    simp only [serLen, List.map_append, List.sum_append, List.length_append,
      List.isEmpty_cons, List.map_cons, List.sum_cons, List.length_cons,
      List.map_nil, List.sum_nil, List.length_nil, if_neg]
    simp
    omega

/-- A prefix never serializes longer than the whole list. -/
theorem serLen_le_append (l r : List (List Char)) :
    serLen l ≤ serLen (l ++ r) := by
  unfold serLen
  rw [List.map_append, List.sum_append, List.length_append]
  omega

/-- Main invariant of the `validateYouTubeTags` loop: starting from
accumulators satisfying the loop invariant (seen is the lowered valid
list, without duplicates; total is the serialized length of valid and
stays within 500; every accepted tag is nonempty, at most 30 characters
and made of permitted characters), the final tag list keeps all three
postconditions. -/
theorem processTags_invariant (ts : List (List Char)) :
    ∀ valid seen total,
      seen = valid.map lowerTag →
      seen.Nodup →
      total = serLen valid →
      total ≤ 500 →
      (∀ t ∈ valid, (∀ c ∈ t, validTagChar c = true) ∧ t.length ≤ 30 ∧ t ≠ []) →
      ((processTags ts valid seen total).map lowerTag).Nodup ∧
      serLen (processTags ts valid seen total) ≤ 500 ∧
      (∀ t ∈ processTags ts valid seen total,
        (∀ c ∈ t, validTagChar c = true) ∧ t.length ≤ 30 ∧ t ≠ []) := by
  induction ts with
  | nil =>
    intro valid seen total hseen hnodup htotal hle hprops
    simp only [processTags]
    exact ⟨hseen ▸ hnodup, htotal ▸ hle, hprops⟩
  | cons tag rest ih =>
    intro valid seen total hseen hnodup htotal hle hprops
    simp only [processTags]
    by_cases h0 : (trimChars tag).isEmpty = true
    · rw [if_pos h0]
      exact ih valid seen total hseen hnodup htotal hle hprops
    · rw [if_neg h0]
      by_cases h1 : (sanitizeTag (trimChars tag)).isEmpty = true
      · rw [if_pos h1]
        exact ih valid seen total hseen hnodup htotal hle hprops
      · rw [if_neg h1]
        set t1 := sanitizeTag (trimChars tag) with ht1
        set t2 := if t1.length > 30 then trimChars (t1.take 30) else t1 with ht2
        by_cases h2 : t2.isEmpty = true
        · rw [if_pos h2]
          exact ih valid seen total hseen hnodup htotal hle hprops
        · rw [if_neg h2]
          by_cases h3 : seen.contains (lowerTag t2) = true
          · rw [if_pos h3]
            exact ih valid seen total hseen hnodup htotal hle hprops
          · rw [if_neg h3]
            by_cases h4 :
              total + (tagSerLen t2 + (if valid.isEmpty then 0 else 1)) > 500
            · rw [if_pos h4]
              exact ⟨hseen ▸ hnodup, htotal ▸ hle, hprops⟩
            · rw [if_neg h4]
              have ht2chars : ∀ c ∈ t2, validTagChar c = true := by
                intro c hc
                rw [ht2] at hc
                by_cases hlen : t1.length > 30
                · rw [if_pos hlen] at hc
                  have hmem := (List.take_sublist 30 t1).subset (mem_trimChars hc)
                  rw [ht1] at hmem
                  exact sanitizeTag_chars hmem
                · rw [if_neg hlen] at hc
                  rw [ht1] at hc
                  exact sanitizeTag_chars hc
              have ht2len : t2.length ≤ 30 := by
                rw [ht2]
                by_cases hlen : t1.length > 30
                · rw [if_pos hlen]
                  have ha := trimChars_length_le (t1.take 30)
                  have hb := List.length_take_le 30 t1
                  omega
                · rw [if_neg hlen]
                  omega
              have ht2ne : t2 ≠ [] := by
                intro he
                exact h2 (by rw [he]; rfl)
              have hnotin : lowerTag t2 ∉ seen := fun hm => h3 (List.elem_iff.2 hm)
              refine ih (valid ++ [t2]) (seen ++ [lowerTag t2])
                (total + (tagSerLen t2 + (if valid.isEmpty then 0 else 1)))
                ?_ ?_ ?_ ?_ ?_
              · rw [hseen, List.map_append]
                rfl
              · rw [List.nodup_append]
                refine ⟨hnodup, List.nodup_singleton _, fun a ha hb => ?_⟩
                rw [List.mem_singleton] at hb
                exact hnotin (hb ▸ ha)
              · rw [htotal, serLen_append_singleton]
              · omega
              · intro t ht
                rcases List.mem_append.1 ht with hm | hm
                · exact hprops t hm
                · rw [List.mem_singleton] at hm
                  rw [hm]
                  exact ⟨ht2chars, ht2len, ht2ne⟩

/-- C5: every tag produced by validateYouTubeTags is at most 30
characters long, contains only alphanumeric characters, spaces, hyphens
and underscores, no two output tags are equal case-insensitively, and
the combined serialized length (each space-containing tag counted with 2
extra quote characters, plus one comma per tag after the first) never
exceeds 500. -/
theorem C5_tag_validator_postconditions (tags : List String) :
    (∀ s ∈ validateYouTubeTags tags, s.data.length ≤ 30) ∧
    (∀ s ∈ validateYouTubeTags tags, ∀ c ∈ s.data, validTagChar c = true) ∧
    ((validateYouTubeTags tags).map (fun s => lowerTag s.data)).Nodup ∧
    serLen ((validateYouTubeTags tags).map String.data) ≤ 500 := by
  obtain ⟨hnodup, hser, hprops⟩ :=
    processTags_invariant (tags.map String.data) [] [] 0 rfl List.nodup_nil rfl
      (by omega) (fun t ht => absurd ht (List.not_mem_nil t))
  unfold validateYouTubeTags
  refine ⟨?_, ?_, ?_, ?_⟩
  · intro s hs
    obtain ⟨t, ht, rfl⟩ := List.mem_map.1 hs
    exact (hprops t ht).2.1
  · intro s hs
    obtain ⟨t, ht, rfl⟩ := List.mem_map.1 hs
    exact (hprops t ht).1
  · rw [List.map_map]
    exact hnodup
  · rw [List.map_map]
    have hid : (processTags (tags.map String.data) [] [] 0).map
        (String.data ∘ fun l => List.asString l) =
        processTags (tags.map String.data) [] [] 0 := by
      rw [show (String.data ∘ fun l : List Char => List.asString l) =
        fun l : List Char => l from rfl]
      exact List.map_id' _
    rw [hid]
    exact hser

/-- C8 counterexample: validateYouTubeTags is not idempotent.  For the
tag "- a", the first pass strips the leading hyphen run AFTER
whitespace has been collapsed and trimmed, leaving the tag " a" with a
leading space; a second pass trims that space, producing "a" and hence
a different list. -/
theorem C8_idempotence_counterexample :
    validateYouTubeTags (validateYouTubeTags ["- a"]) ≠
      validateYouTubeTags ["- a"] ∧
    validateYouTubeTags ["- a"] = [" a"] ∧
    validateYouTubeTags (validateYouTubeTags ["- a"]) = ["a"] := by
  refine ⟨by decide, by decide, by decide⟩

/-- Rerunning the validateYouTubeTags loop over a list of already-valid
tags reproduces it: each tag unchanged by trim and by sanitize, short
enough not to be truncated, pairwise distinct after lowering, and
collectively within the 500 budget, is accepted verbatim. -/
theorem processTags_fixpoint (rest : List (List Char)) :
    ∀ valid seen total,
      seen = valid.map lowerTag →
      total = serLen valid →
      ((valid ++ rest).map lowerTag).Nodup →
      serLen (valid ++ rest) ≤ 500 →
      (∀ t ∈ rest,
        trimChars t = t ∧ sanitizeTag t = t ∧ t.length ≤ 30 ∧ t ≠ []) →
      processTags rest valid seen total = valid ++ rest := by
  induction rest with
  | nil =>
    intro valid seen total _ _ _ _ _
    simp [processTags]
  | cons t rest ih =>
    intro valid seen total hseen htotal hnodup hser hprops
    obtain ⟨htrim, hsan, hlen, hne⟩ := hprops t (List.mem_cons_self t rest)
    simp only [processTags]
    rw [htrim]
    rw [if_neg (show ¬(t.isEmpty = true) from
      fun he => hne (List.isEmpty_iff.1 he))]
    rw [hsan]
    rw [if_neg (show ¬(t.isEmpty = true) from
      fun he => hne (List.isEmpty_iff.1 he))]
    rw [if_neg (show ¬(t.length > 30) from by omega)]
    rw [if_neg (show ¬(t.isEmpty = true) from
      fun he => hne (List.isEmpty_iff.1 he))]
    have hnotin : lowerTag t ∉ seen := by
      rw [hseen]
      intro hmem
      rw [List.map_append] at hnodup
      obtain ⟨_, _, hdisj⟩ := List.nodup_append.1 hnodup
      exact hdisj hmem (List.mem_map.2 ⟨t, List.mem_cons_self t rest, rfl⟩)
    rw [if_neg (show ¬(seen.contains (lowerTag t) = true) from
      fun hc => hnotin (List.elem_iff.1 hc))]
    have hb : total + (tagSerLen t + (if valid.isEmpty then 0 else 1)) =
        serLen (valid ++ [t]) := by
      rw [htotal, serLen_append_singleton]
    have hb2 : serLen (valid ++ [t]) ≤ serLen (valid ++ t :: rest) := by
      rw [show valid ++ t :: rest = (valid ++ [t]) ++ rest by simp]
      exact serLen_le_append _ _
    rw [if_neg (show
      ¬(total + (tagSerLen t + (if valid.isEmpty then 0 else 1)) > 500) from
      by omega)]
    rw [ih (valid ++ [t]) (seen ++ [lowerTag t])
      (total + (tagSerLen t + (if valid.isEmpty then 0 else 1)))
      (by rw [hseen, List.map_append]; rfl)
      hb
      (by rw [List.append_assoc]; simpa using hnodup)
      (by rw [List.append_assoc]; simpa using hser)
      (fun u hu => hprops u (List.mem_cons_of_mem t hu))]
    simp

/-- C8 (amended): validateYouTubeTags is idempotent on every input
whose first-pass output tags are genuine fixpoints of the per-tag
pipeline, that is, unchanged by trim and by sanitize (equivalently, no
output tag carries a leading/trailing space or hyphen reintroduced by
the hyphen-stripping or truncation steps).  On such inputs a second
validation pass returns the output unchanged; the counterexample shows
the unrestricted claim fails. -/
theorem C8_tag_validation_idempotent (tags : List String)
    (hfix : ∀ t ∈ processTags (tags.map String.data) [] [] 0,
      trimChars t = t ∧ sanitizeTag t = t) :
    validateYouTubeTags (validateYouTubeTags tags) = validateYouTubeTags tags := by
  obtain ⟨hnodup, hser, hprops⟩ :=
    processTags_invariant (tags.map String.data) [] [] 0 rfl List.nodup_nil rfl
      (by omega) (fun t ht => absurd ht (List.not_mem_nil t))
  unfold validateYouTubeTags
  rw [List.map_map]
  rw [show ((processTags (tags.map String.data) [] [] 0).map
      (String.data ∘ fun l => List.asString l)) =
      processTags (tags.map String.data) [] [] 0 from by
    rw [show (String.data ∘ fun l : List Char => List.asString l) =
      fun l : List Char => l from rfl]
    exact List.map_id' _]
  congr 1
  exact processTags_fixpoint (processTags (tags.map String.data) [] [] 0)
    [] [] 0 rfl rfl hnodup hser
    (fun t ht => ⟨(hfix t ht).1, (hfix t ht).2, (hprops t ht).2.1,
      (hprops t ht).2.2⟩)

/-- C8 witness: a concrete input whose first-pass tags are fixpoints;
validation is idempotent there. -/
theorem C8_tag_validation_idempotent_witness :
    validateYouTubeTags (validateYouTubeTags ["hello", "multi word"]) =
      validateYouTubeTags ["hello", "multi word"] :=
  C8_tag_validation_idempotent ["hello", "multi word"] (by decide)

end SyncSquid
